import Mathlib

/-!
# Verification of the saelient J1939 transport-protocol receiver

Shallow embedding of the receiver-side transport protocol (TP.CM / TP.DT)
from `src/transport/message.rs`, `src/transport/mod.rs` and the `Pgn`
conversions of `src/id.rs`.

Modelling conventions:
* machine integers (`u8`, `u16`, `u32`) are `Nat` with explicit `% 2^w`
  at the points where the Rust code performs byte extraction or where an
  addition can wrap (release-profile wrapping semantics);
* wire frames (`[u8; 8]`) are `List Nat` of length 8;
* `TryFrom<&[u8]>` (returning `Err(original)`) is `Except (List Nat) _`;
* operations that can panic in every build profile are wrapped in
  `Option`: `none` marks the panic (the division by zero in the burst
  check of `Transfer::next`, and the out-of-range slice
  `&storage[..total_size]` in `Transfer::finished`).
-/

namespace Saelient

/-- Parameter group number, from `src/id.rs` (`enum Pgn`). -/
inductive Pgn where
  | request2
  | transfer
  | bootLoadData
  | binaryDataTransfer
  | memoryAccessResponse
  | memoryAccessRequest
  | request
  | acknowledgement
  | transportProtocolDataTransfer
  | transportProtocolConnectionManagement
  | proprietaryA
  | proprietaryA2
  | proprietaryB (x : Nat)
  | proprietaryB2 (x : Nat)
  | other (v : Nat)
deriving DecidableEq

/-- `impl From<u32> for Pgn` from `src/id.rs`. -/
def Pgn.fromU32 (value : Nat) : Pgn :=
  if value = 51456 then .request2
  else if value = 51712 then .transfer
  else if value = 54784 then .bootLoadData
  else if value = 55040 then .binaryDataTransfer
  else if value = 55296 then .memoryAccessResponse
  else if value = 55552 then .memoryAccessRequest
  else if value = 59904 then .request
  else if value = 59392 then .acknowledgement
  else if value = 60160 then .transportProtocolDataTransfer
  else if value = 60416 then .transportProtocolConnectionManagement
  else if value = 61184 then .proprietaryA
  else if value = 126720 then .proprietaryA2
  else if 65280 ≤ value ∧ value ≤ 65535 then .proprietaryB (value % 256)
  else if 130816 ≤ value ∧ value ≤ 131071 then .proprietaryB2 (value % 256)
  else .other value

/-- `impl From<&Pgn> for u32` from `src/id.rs`. -/
def Pgn.toU32 : Pgn → Nat
  | .request2 => 51456
  | .transfer => 51712
  | .bootLoadData => 54784
  | .binaryDataTransfer => 55040
  | .memoryAccessResponse => 55296
  | .memoryAccessRequest => 55552
  | .request => 59904
  | .acknowledgement => 59392
  | .transportProtocolDataTransfer => 60160
  | .transportProtocolConnectionManagement => 60416
  | .proprietaryA => 61184
  | .proprietaryA2 => 126720
  | .proprietaryB x => (x % 256) ||| 0xFF00
  | .proprietaryB2 x => (x % 256) ||| 0x1FF00
  | .other v => v

/-- A `Pgn` value that survives the 24-bit wire trip: it is the canonical
decoding of its own `u32` form and fits in the three identifier bytes that
the transport messages carry. -/
def Pgn.wireOk (p : Pgn) : Prop :=
  Pgn.fromU32 (Pgn.toU32 p) = p ∧ Pgn.toU32 p < 16777216

instance (p : Pgn) : Decidable p.wireOk := by
  unfold Pgn.wireOk; infer_instance

/-- The three little-endian identifier bytes `u32::from(pgn).to_le_bytes()[0..3]`. -/
def Pgn.bytes (p : Pgn) : List Nat :=
  [p.toU32 % 256, p.toU32 / 256 % 256, p.toU32 / 65536 % 256]

/-- `u32::from_le_bytes([b0, b1, b2, 0x00])`. -/
def leU24 (b0 b1 b2 : Nat) : Nat := b0 + 256 * b1 + 65536 * b2

/-- Abort reason, `enum AbortReason` from `src/transport/message.rs`. -/
inductive AbortReason where
  | maxConnections
  | canceledBySystem
  | timeout
  | ctsWhileDataTransfer
  | retransmitLimitReached
  | unexpectedDataTransfer
  | badSequenceNumber
  | duplicateSequenceNumber
  | messageTooLarge
  | custom
deriving DecidableEq

/-- `impl From<&AbortReason> for u8`: the discriminant values. -/
def AbortReason.toU8 : AbortReason → Nat
  | .maxConnections => 1
  | .canceledBySystem => 2
  | .timeout => 3
  | .ctsWhileDataTransfer => 4
  | .retransmitLimitReached => 5
  | .unexpectedDataTransfer => 6
  | .badSequenceNumber => 7
  | .duplicateSequenceNumber => 8
  | .messageTooLarge => 9
  | .custom => 250

/-- `impl TryFrom<u8> for AbortReason`: `none` models `Err(value)`. -/
def AbortReason.fromU8 (value : Nat) : Option AbortReason :=
  if value = 1 then some .maxConnections
  else if value = 2 then some .canceledBySystem
  else if value = 3 then some .timeout
  else if value = 4 then some .ctsWhileDataTransfer
  else if value = 5 then some .retransmitLimitReached
  else if value = 6 then some .unexpectedDataTransfer
  else if value = 7 then some .badSequenceNumber
  else if value = 8 then some .duplicateSequenceNumber
  else if value = 9 then some .messageTooLarge
  else if value = 250 then some .custom
  else none

/-- Abort message sender role, `enum AbortSenderRole`. -/
inductive AbortSenderRole where
  | sender
  | receiver
  | reserved
  | notSpecified
deriving DecidableEq

/-- `impl From<&AbortSenderRole> for u8`. -/
def AbortSenderRole.toU8 : AbortSenderRole → Nat
  | .sender => 0
  | .receiver => 1
  | .reserved => 2
  | .notSpecified => 3

/-- `impl TryFrom<u8> for AbortSenderRole`: the match has no arm for
`Reserved`, so `0b10` falls to `Err` (`none`). -/
def AbortSenderRole.fromU8 (value : Nat) : Option AbortSenderRole :=
  if value = 0 then some .sender
  else if value = 1 then some .receiver
  else if value = 3 then some .notSpecified
  else none

/-- `struct RequestToSend` (TP.CM_RTS). -/
structure RequestToSend where
  total_size : Nat
  total_packets : Nat
  max_packets_per_response : Option Nat
  pgn : Pgn
deriving DecidableEq

/-- `impl From<RequestToSend> for [u8; 8]` (MUX 16). -/
def RequestToSend.encode (m : RequestToSend) : List Nat :=
  [16, m.total_size % 256, m.total_size / 256 % 256, m.total_packets % 256,
   (m.max_packets_per_response.getD 255) % 256] ++ m.pgn.bytes

/-- `impl TryFrom<&[u8]> for RequestToSend`. -/
def RequestToSend.decode (l : List Nat) : Except (List Nat) RequestToSend :=
  match l with
  | [b0, b1, b2, b3, b4, b5, b6, b7] =>
      if b0 ≠ 16 then .error [b0, b1, b2, b3, b4, b5, b6, b7]
      else .ok
        { total_size := b1 + 256 * b2
          total_packets := b3
          max_packets_per_response := if b4 = 255 then none else some b4
          pgn := Pgn.fromU32 (leU24 b5 b6 b7) }
  | _ => .error l

/-- `struct ClearToSend` (TP.CM_CTS). -/
structure ClearToSend where
  max_packets_per_response : Option Nat
  next_sequence : Nat
  pgn : Pgn
deriving DecidableEq

/-- `impl From<&ClearToSend> for [u8; 8]` (MUX 17). -/
def ClearToSend.encode (m : ClearToSend) : List Nat :=
  [17, (m.max_packets_per_response.getD 255) % 256, m.next_sequence % 256,
   0xFF, 0xFF] ++ m.pgn.bytes

/-- `impl TryFrom<&[u8]> for ClearToSend`. -/
def ClearToSend.decode (l : List Nat) : Except (List Nat) ClearToSend :=
  match l with
  | [b0, b1, b2, b3, b4, b5, b6, b7] =>
      if b0 ≠ 17 then .error [b0, b1, b2, b3, b4, b5, b6, b7]
      else .ok
        { max_packets_per_response := if b1 = 255 then none else some b1
          next_sequence := b2
          pgn := Pgn.fromU32 (leU24 b5 b6 b7) }
  | _ => .error l

/-- `struct EndOfMessageAck` (TP.CM_EndOfMsgAck). -/
structure EndOfMessageAck where
  total_size : Nat
  total_packets : Nat
  pgn : Pgn
deriving DecidableEq

/-- `impl From<&EndOfMessageAck> for [u8; 8]` (MUX 19). -/
def EndOfMessageAck.encode (m : EndOfMessageAck) : List Nat :=
  [19, m.total_size % 256, m.total_size / 256 % 256, m.total_packets % 256,
   0xFF] ++ m.pgn.bytes

/-- `impl TryFrom<&[u8]> for EndOfMessageAck`. -/
def EndOfMessageAck.decode (l : List Nat) : Except (List Nat) EndOfMessageAck :=
  match l with
  | [b0, b1, b2, b3, b4, b5, b6, b7] =>
      if b0 ≠ 19 then .error [b0, b1, b2, b3, b4, b5, b6, b7]
      else .ok
        { total_size := b1 + 256 * b2
          total_packets := b3
          pgn := Pgn.fromU32 (leU24 b5 b6 b7) }
  | _ => .error l

/-- `struct ConnectionAbort` (TP.Conn_Abort). -/
structure ConnectionAbort where
  reason : AbortReason
  sender_role : AbortSenderRole
  pgn : Pgn
deriving DecidableEq

/-- `impl From<&ConnectionAbort> for [u8; 8]` (MUX 255).  Byte 2 is, as in
the source, `u8::from(&value.sender_role) & 0b11111100`. -/
def ConnectionAbort.encode (m : ConnectionAbort) : List Nat :=
  [255, m.reason.toU8, m.sender_role.toU8 &&& 0b11111100, 0xFF, 0xFF] ++ m.pgn.bytes

/-- `impl TryFrom<&[u8]> for ConnectionAbort`. -/
def ConnectionAbort.decode (l : List Nat) : Except (List Nat) ConnectionAbort :=
  match l with
  | [b0, b1, b2, b3, b4, b5, b6, b7] =>
      if b0 ≠ 255 then .error [b0, b1, b2, b3, b4, b5, b6, b7]
      else .ok
        { reason := (AbortReason.fromU8 b1).getD .custom
          sender_role := (AbortSenderRole.fromU8 (b2 &&& 0b00000011)).getD .notSpecified
          pgn := Pgn.fromU32 (leU24 b5 b6 b7) }
  | _ => .error l

/-- `struct DataTransfer` (TP.DT): a sequence byte and 7 payload bytes. -/
structure DataTransfer where
  sequence : Nat
  data : List Nat
deriving DecidableEq

/-- `impl From<&DataTransfer> for [u8; 8]`: no multiplexor byte. -/
def DataTransfer.encode (m : DataTransfer) : List Nat :=
  m.sequence % 256 :: m.data

/-- `impl TryFrom<&[u8]> for DataTransfer`: only the length is checked. -/
def DataTransfer.decode (l : List Nat) : Except (List Nat) DataTransfer :=
  match l with
  | [b0, b1, b2, b3, b4, b5, b6, b7] =>
      .ok { sequence := b0, data := [b1, b2, b3, b4, b5, b6, b7] }
  | _ => .error l

/-- Session-level error kinds, `enum Error` in `src/transport/mod.rs`. -/
inductive TpError where
  | storageTooSmall
  | sequence
  | previousAbort
deriving DecidableEq

/-- Flow-control / termination responses, `enum Response`. -/
inductive Response where
  | cts (c : ClearToSend)
  | endAck (e : EndOfMessageAck)
deriving DecidableEq

/-- The `ManagedSlice` storage of a transfer: `Owned` is the growable
`Vec<u8>` backend, `Borrowed` the caller-supplied fixed region. -/
inductive Storage where
  | owned (vec : List Nat)
  | borrowed (slice : List Nat)
deriving DecidableEq

/-- The raw byte contents of either storage backend. -/
def Storage.bytes : Storage → List Nat
  | .owned vec => vec
  | .borrowed slice => slice

/-- `struct Transfer`: one in-flight reassembly session. -/
structure Transfer where
  rts : RequestToSend
  rx_packets : Nat
  storage : Storage
  abort : Bool
deriving DecidableEq

/-- `Transfer::new`: fresh session with an empty growable buffer. -/
def Transfer.mkNew (rts : RequestToSend) : Transfer :=
  { rts := rts, rx_packets := 0, storage := .owned [], abort := false }

/-- `Transfer::new_with_storage`: fresh session over a caller-supplied
fixed region. -/
def Transfer.mkNewWithStorage (rts : RequestToSend) (slice : List Nat) : Transfer :=
  { rts := rts, rx_packets := 0, storage := .borrowed slice, abort := false }

/-- `Transfer::finished`.  `some (some bytes)` is `Some(&storage[..total_size])`,
`some none` is `None` ("not yet available"), and the outer `none` marks the
panic of the Rust range `&self.storage[..total_size]` when the stored bytes
are shorter than `total_size`.  The accessor takes `&self`: it never
mutates the session. -/
def Transfer.finished (t : Transfer) : Option (Option (List Nat)) :=
  if t.rts.total_packets ≤ t.rx_packets ∧ t.abort = false then
    if t.rts.total_size ≤ t.storage.bytes.length then
      some (some (t.storage.bytes.take t.rts.total_size))
    else none
  else some none

/-- The result of one `Transfer::next` call:
`Result<Option<Response>, (Error, ConnectionAbort)>`. -/
abbrev StepResult := Except (TpError × ConnectionAbort) (Option Response)

/-- `slice.chunks_mut(7).nth(n)` overwritten via `clone_from_slice` with the
first `chunk.len()` payload bytes: positions `[7n, 7n + min 7 (len − 7n))`
are replaced, the rest of the region is untouched. -/
def writeChunk (slice : List Nat) (n : Nat) (data : List Nat) : List Nat :=
  slice.take (7 * n) ++ data.take (min 7 (slice.length - 7 * n)) ++ slice.drop (7 * n + 7)

/-- The `match &mut self.storage` block of `Transfer::next`: the growable
backend appends the payload and truncates to `total_size`; the fixed
backend writes the `rx`-th 7-byte window, `none` reporting the missing
window (`chunks_mut(7).nth(rx)` returned `None`). -/
def Storage.write (s : Storage) (rx : Nat) (data : List Nat) (total_size : Nat) :
    Option Storage :=
  match s with
  | .owned vec => some (.owned ((vec ++ data).take total_size))
  | .borrowed slice =>
      if 7 * rx < slice.length then some (.borrowed (writeChunk slice rx data))
      else none

/-- `Transfer::next` from `src/transport/mod.rs`.  The outer `none` marks the
one unconditional panic of the function: `msg.sequence() % packets_per_response`
when the configured burst limit is `Some(0)` (division by zero).  `u8`
additions wrap (`% 256`) as in a release build. -/
def Transfer.next (t : Transfer) (msg : DataTransfer) : Option (Transfer × StepResult) :=
  if t.abort then
    some (t, .error (.previousAbort,
      ⟨.unexpectedDataTransfer, .receiver, t.rts.pgn⟩))
  else if msg.sequence ≠ (t.rx_packets + 1) % 256 then
    some ({ t with abort := true }, .error (.sequence,
      ⟨.badSequenceNumber, .receiver, t.rts.pgn⟩))
  else
    match t.storage.write t.rx_packets msg.data t.rts.total_size with
    | none =>
        some ({ t with abort := true }, .error (.storageTooSmall,
          ⟨.custom, .receiver, t.rts.pgn⟩))
    | some st =>
        if (t.rx_packets + 1) % 256 = t.rts.total_packets then
          some ({ t with storage := st, rx_packets := (t.rx_packets + 1) % 256 },
            .ok (some (.endAck ⟨t.rts.total_size, t.rts.total_packets, t.rts.pgn⟩)))
        else
          match t.rts.max_packets_per_response with
          | some b =>
              if b = 0 then none
              else if msg.sequence % b = 0 then
                some ({ t with storage := st, rx_packets := (t.rx_packets + 1) % 256 },
                  .ok (some (.cts ⟨t.rts.max_packets_per_response,
                    ((t.rx_packets + 1) % 256 + 1) % 256, t.rts.pgn⟩)))
              else
                some ({ t with storage := st, rx_packets := (t.rx_packets + 1) % 256 },
                  .ok none)
          | none =>
              some ({ t with storage := st, rx_packets := (t.rx_packets + 1) % 256 },
                .ok none)

/-- Drive a session through a list of messages, discarding the step
results; `none` if any step panics. -/
def Transfer.run (t : Transfer) : List DataTransfer → Option Transfer
  | [] => some t
  | m :: ms =>
      match t.next m with
      | some (t2, _) => t2.run ms
      | none => none

/-- Session states reachable from a freshly constructed session by any
sequence of non-panicking `Transfer::next` calls. -/
inductive Reachable : Transfer → Prop where
  | newOwned (rts : RequestToSend) : Reachable (Transfer.mkNew rts)
  | newBorrowed (rts : RequestToSend) (slice : List Nat) :
      Reachable (Transfer.mkNewWithStorage rts slice)
  | step {t t2 : Transfer} {msg : DataTransfer} {r : StepResult} :
      Reachable t → t.next msg = some (t2, r) → Reachable t2

/-- The `i`-th (0-based) 7-byte chunk of `bytes`, right-padded with the
conventional `0xFF` filler on the final segment. -/
def chunkPayload (bytes : List Nat) (i : Nat) : List Nat :=
  ((bytes.drop (7 * i)).take 7) ++
    List.replicate (7 - ((bytes.drop (7 * i)).take 7).length) 0xFF

/-- The first `n` DataTransfer segments (sequences `1..n`) with payloads
drawn from `d`. -/
def ascSegs (d : Nat → List Nat) (n : Nat) : List DataTransfer :=
  (List.range n).map fun i => ⟨i + 1, d i⟩

/-- The in-order segment stream for an original byte string. -/
def segStream (bytes : List Nat) (n : Nat) : List DataTransfer :=
  ascSegs (chunkPayload bytes) n

/-- Valid field combination for a RequestToSend: the fields fit the wire
widths, the burst sentinel 255 is not used as a value, and the identifier
survives its 24-bit wire form. -/
def RequestToSend.wf (m : RequestToSend) : Prop :=
  m.total_size < 65536 ∧ m.total_packets < 256 ∧
  (∀ b ∈ m.max_packets_per_response, b < 255) ∧ m.pgn.wireOk

/-- Valid field combination for a ClearToSend. -/
def ClearToSend.wf (m : ClearToSend) : Prop :=
  (∀ b ∈ m.max_packets_per_response, b < 255) ∧ m.next_sequence < 256 ∧ m.pgn.wireOk

/-- Valid field combination for an EndOfMessageAck. -/
def EndOfMessageAck.wf (m : EndOfMessageAck) : Prop :=
  m.total_size < 65536 ∧ m.total_packets < 256 ∧ m.pgn.wireOk

/-- Valid field combination for a ConnectionAbort (the enumerated fields
are valid by construction). -/
def ConnectionAbort.wf (m : ConnectionAbort) : Prop := m.pgn.wireOk

/-- Valid field combination for a DataTransfer. -/
def DataTransfer.wf (m : DataTransfer) : Prop :=
  m.sequence < 256 ∧ m.data.length = 7

/-- A wire-valid identifier is reproduced from its three little-endian bytes. -/
lemma pgn_bytes_roundtrip {p : Pgn} (h : p.wireOk) :
    Pgn.fromU32 (leU24 (p.toU32 % 256) (p.toU32 / 256 % 256) (p.toU32 / 65536 % 256)) = p := by
  have hlt : p.toU32 < 16777216 := h.2
  have : leU24 (p.toU32 % 256) (p.toU32 / 256 % 256) (p.toU32 / 65536 % 256) = p.toU32 := by
    unfold leU24; omega
  rw [this, h.1]

/-- The role decoder has no `Reserved` arm: whatever the input byte, the
`unwrap_or(NotSpecified)` result is never `Reserved`. -/
lemma role_fallback_ne_reserved (v : Nat) :
    (AbortSenderRole.fromU8 v).getD .notSpecified ≠ .reserved := by
  unfold AbortSenderRole.fromU8
  split <;> try simp
  split <;> try simp
  split <;> simp

/-- C4: the construction contract admits a configured burst limit of 0
(`assert!(max < 255)` accepts it), yet the very first in-order segment then
reaches `msg.sequence() % packets_per_response` with divisor 0 and the
process halts on a division-by-zero panic instead of returning a
recoverable error.  The session below is contract-valid: total_size 9 lies
in [9,1785], total_packets 2 = ceil(9/7) lies in [2,255], burst 0 < 255. -/
theorem transition_burst_zero_divides_by_zero :
    ((9 : Nat) ≤ 9 ∧ (9 : Nat) ≤ 1785 ∧ (9 + 6) / 7 = 2 ∧ (0 : Nat) < 255) ∧
    Transfer.next (Transfer.mkNew ⟨9, 2, some 0, .other 0⟩) ⟨1, [0, 0, 0, 0, 0, 0, 0]⟩ = none :=
  ⟨by decide, rfl⟩

/-- C10: for every byte sequence the ConnectionAbort decoder accepts, the
decoded sender role is never `Reserved`; in particular when the low two
bits of byte 2 are `0b10` the decoder yields `NotSpecified`. -/
theorem decode_abort_role_never_reserved :
    ∀ (l : List Nat) (a : ConnectionAbort), ConnectionAbort.decode l = .ok a →
      a.sender_role ≠ .reserved ∧
      (l.getD 2 0 &&& 3 = 2 → a.sender_role = .notSpecified) := by
  intro l a h
  rcases l with _ | ⟨b0, l⟩; · simp [ConnectionAbort.decode] at h
  rcases l with _ | ⟨b1, l⟩; · simp [ConnectionAbort.decode] at h
  rcases l with _ | ⟨b2, l⟩; · simp [ConnectionAbort.decode] at h
  rcases l with _ | ⟨b3, l⟩; · simp [ConnectionAbort.decode] at h
  rcases l with _ | ⟨b4, l⟩; · simp [ConnectionAbort.decode] at h
  rcases l with _ | ⟨b5, l⟩; · simp [ConnectionAbort.decode] at h
  rcases l with _ | ⟨b6, l⟩; · simp [ConnectionAbort.decode] at h
  rcases l with _ | ⟨b7, l⟩; · simp [ConnectionAbort.decode] at h
  rcases l with _ | ⟨b8, l⟩
  · simp only [ConnectionAbort.decode] at h
    split at h
    · exact absurd h (by simp)
    · simp only [Except.ok.injEq] at h
      subst h
      refine ⟨role_fallback_ne_reserved _, ?_⟩
      intro h2
      simp only [List.getD, List.get?_cons_succ, List.get?_cons_zero,
        Option.getD_some] at h2
      simp only [h2]
      rfl
  · simp [ConnectionAbort.decode] at h

/-- C10 witness: the theorem applied to a concrete frame with role bits
`0b10` (byte 2 = 2). -/
theorem decode_abort_role_never_reserved_witness :
    AbortSenderRole.notSpecified ≠ AbortSenderRole.reserved ∧
    ([255, 250, 2, 255, 255, 0, 0, 0].getD 2 0 &&& 3 = 2 →
      AbortSenderRole.notSpecified = AbortSenderRole.notSpecified) :=
  decode_abort_role_never_reserved [255, 250, 2, 255, 255, 0, 0, 0]
    ⟨.custom, .notSpecified, .other 0⟩ rfl

/-- C2 counterexample: round-tripping a ConnectionAbort with sender role
`Receiver` yields sender role `Sender` — the encoder writes
`u8::from(&role) & 0b11111100`, which zeroes the two role bits, so the
decoder always reads role `0b00`. -/
theorem abort_roundtrip_loses_role :
    ConnectionAbort.decode (ConnectionAbort.encode ⟨.custom, .receiver, .other 0⟩) =
      .ok ⟨.custom, .sender, .other 0⟩ ∧
    ConnectionAbort.mk .custom .sender (.other 0) ≠ ⟨.custom, .receiver, .other 0⟩ :=
  ⟨rfl, by decide⟩

/-- C3 counterexample: with total_size 9 (total_packets 2) and growable
storage, the in-order segments 1, 2, 3 are all accepted, leaving a
reachable state whose counter 3 exceeds total_packets 2. -/
theorem counter_exceeds_total_packets :
    Transfer.run (Transfer.mkNew ⟨9, 2, none, .other 0⟩)
        [⟨1, [1, 1, 1, 1, 1, 1, 1]⟩, ⟨2, [2, 2, 2, 2, 2, 2, 2]⟩, ⟨3, [3, 3, 3, 3, 3, 3, 3]⟩] =
      some ⟨⟨9, 2, none, .other 0⟩, 3, .owned [1, 1, 1, 1, 1, 1, 1, 2, 2], false⟩ ∧
    (2 : Nat) < 3 :=
  ⟨rfl, by decide⟩

/-- C5 counterexample: a fixed region of 8 bytes has two windows for a
3-packet transfer; segment 2 is accepted (no error, no abort) yet only the
first byte of its 7-byte payload is stored — the payload [2,…,2] is not
contained in the region, contradicting "no earlier accepted segment loses
payload bytes". -/
theorem accepted_segment_loses_bytes :
    Transfer.run (Transfer.mkNewWithStorage ⟨16, 3, none, .other 0⟩ (List.replicate 8 0))
        [⟨1, [1, 1, 1, 1, 1, 1, 1]⟩, ⟨2, [2, 2, 2, 2, 2, 2, 2]⟩] =
      some ⟨⟨16, 3, none, .other 0⟩, 2, .borrowed [1, 1, 1, 1, 1, 1, 1, 2], false⟩ ∧
    ¬ List.IsInfix [2, 2, 2, 2, 2, 2, 2] [1, 1, 1, 1, 1, 1, 1, 2] :=
  ⟨rfl, by decide⟩

/-- C8 counterexample: a finished session (counter = total_packets = 3,
readable) fed the next in-order sequence number 4 accepts it — the call
returns `Ok(None)`, the abort flag stays clear and the counter moves to 4,
so a finished session does accept another segment. -/
theorem finished_session_accepts_successor :
    Transfer.run (Transfer.mkNew ⟨16, 3, none, .other 0⟩)
        [⟨1, [1, 2, 3, 4, 5, 6, 7]⟩, ⟨2, [8, 9, 10, 11, 12, 13, 14]⟩,
         ⟨3, [15, 16, 255, 255, 255, 255, 255]⟩] =
      some ⟨⟨16, 3, none, .other 0⟩, 3,
        .owned [1, 2, 3, 4, 5, 6, 7, 8, 9, 10, 11, 12, 13, 14, 15, 16], false⟩ ∧
    Transfer.finished ⟨⟨16, 3, none, .other 0⟩, 3,
        .owned [1, 2, 3, 4, 5, 6, 7, 8, 9, 10, 11, 12, 13, 14, 15, 16], false⟩ =
      some (some [1, 2, 3, 4, 5, 6, 7, 8, 9, 10, 11, 12, 13, 14, 15, 16]) ∧
    Transfer.next ⟨⟨16, 3, none, .other 0⟩, 3,
        .owned [1, 2, 3, 4, 5, 6, 7, 8, 9, 10, 11, 12, 13, 14, 15, 16], false⟩
        ⟨4, [9, 9, 9, 9, 9, 9, 9]⟩ =
      some (⟨⟨16, 3, none, .other 0⟩, 4,
        .owned [1, 2, 3, 4, 5, 6, 7, 8, 9, 10, 11, 12, 13, 14, 15, 16], false⟩, .ok none) :=
  ⟨rfl, rfl, rfl⟩

/-- The 255 in-order segments 1..255, all with zero payload. -/
def wrapSegs : List DataTransfer :=
  (List.range 255).map fun i => ⟨i + 1, [0, 0, 0, 0, 0, 0, 0]⟩

set_option maxRecDepth 4096 in
/-- C7 counterexample: after 255 accepted in-order segments the counter
holds 255; the expected next sequence, `self.rx_packets + 1` in `u8`, wraps
to 0, so the segment with sequence 0 — which differs from
received_count + 1 = 256 — is accepted (`Ok(None)`, no abort, counter
wraps to 0) instead of aborting with the sequence error. -/
theorem wrapped_counter_accepts_wrong_sequence :
    Transfer.run (Transfer.mkNew ⟨9, 2, none, .other 0⟩) wrapSegs =
      some ⟨⟨9, 2, none, .other 0⟩, 255, .owned [0, 0, 0, 0, 0, 0, 0, 0, 0], false⟩ ∧
    (0 : Nat) ≠ 255 + 1 ∧
    Transfer.next ⟨⟨9, 2, none, .other 0⟩, 255, .owned [0, 0, 0, 0, 0, 0, 0, 0, 0], false⟩
        ⟨0, [1, 1, 1, 1, 1, 1, 1]⟩ =
      some (⟨⟨9, 2, none, .other 0⟩, 0, .owned [0, 0, 0, 0, 0, 0, 0, 0, 0], false⟩, .ok none) :=
  ⟨by decide, by decide, rfl⟩

/-- C9 counterexample: a fixed region of 15 bytes has three windows, so a
3-packet transfer of total_size 16 completes — but the read accessor then
evaluates `&storage[..16]` on 15 stored bytes and panics (modelled by the
outer `none`) instead of returning the byte range. -/
theorem read_accessor_panics_on_short_region :
    Transfer.run (Transfer.mkNewWithStorage ⟨16, 3, none, .other 0⟩ (List.replicate 15 0))
        [⟨1, [1, 1, 1, 1, 1, 1, 1]⟩, ⟨2, [2, 2, 2, 2, 2, 2, 2]⟩, ⟨3, [3, 3, 3, 3, 3, 3, 3]⟩] =
      some ⟨⟨16, 3, none, .other 0⟩, 3,
        .borrowed [1, 1, 1, 1, 1, 1, 1, 2, 2, 2, 2, 2, 2, 2, 3], false⟩ ∧
    Transfer.finished ⟨⟨16, 3, none, .other 0⟩, 3,
        .borrowed [1, 1, 1, 1, 1, 1, 1, 2, 2, 2, 2, 2, 2, 2, 3], false⟩ = none :=
  ⟨rfl, rfl⟩

/-- Step shape: an aborted session rejects any input unchanged. -/
lemma next_of_abort (t : Transfer) (msg : DataTransfer) (h : t.abort = true) :
    t.next msg = some (t, .error (.previousAbort,
      ⟨.unexpectedDataTransfer, .receiver, t.rts.pgn⟩)) := by
  simp [Transfer.next, h]

/-- Step shape: a live session aborts on a sequence number other than the
wrapped `rx_packets + 1`. -/
lemma next_bad_sequence (t : Transfer) (msg : DataTransfer) (hab : t.abort = false)
    (hseq : msg.sequence ≠ (t.rx_packets + 1) % 256) :
    t.next msg = some ({ t with abort := true }, .error (.sequence,
      ⟨.badSequenceNumber, .receiver, t.rts.pgn⟩)) := by
  simp [Transfer.next, hab, hseq]

/-- Any non-panicking step leaves the counter alone or moves it to the
wrapped successor. -/
lemma next_rx_cases {t t2 : Transfer} {msg : DataTransfer} {r : StepResult}
    (h : t.next msg = some (t2, r)) :
    t2.rx_packets = t.rx_packets ∨ t2.rx_packets = (t.rx_packets + 1) % 256 := by
  unfold Transfer.next at h
  repeat' split at h
  all_goals
    first
      | exact Option.noConfusion h
      | (simp only [Option.some.injEq, Prod.mk.injEq] at h
         obtain ⟨h1, -⟩ := h
         subst h1
         simp)

/-- C3, amended: once the session is aborted every subsequent input is
rejected with the previous-abort error and the state — abort flag
included — is returned unchanged; and in every reachable state the
received-packet counter is at most 255 (the `u8` bound).  The stronger
bound `rx_packets ≤ total_packets` of the original claim fails: see the
counterexample, the counter keeps climbing past `total_packets` when
in-order segments keep arriving after completion. -/
theorem abort_terminal_and_counter_below_256 :
    (∀ (t : Transfer) (msg : DataTransfer), t.abort = true →
      t.next msg = some (t, .error (.previousAbort,
        ⟨.unexpectedDataTransfer, .receiver, t.rts.pgn⟩))) ∧
    (∀ t : Transfer, Reachable t → t.rx_packets ≤ 255) := by
  constructor
  · exact next_of_abort
  · intro t h
    induction h with
    | newOwned rts => simp [Transfer.mkNew]
    | newBorrowed rts slice => simp [Transfer.mkNewWithStorage]
    | step _ hstep ih =>
        rcases next_rx_cases hstep with h2 | h2 <;> rw [h2] <;> omega

/-- C3 witness: the rejection branch applied to a concrete aborted session. -/
theorem abort_terminal_witness :
    Transfer.next ⟨⟨9, 2, none, .other 0⟩, 1, .owned [], true⟩ ⟨2, [0, 0, 0, 0, 0, 0, 0]⟩ =
      some (⟨⟨9, 2, none, .other 0⟩, 1, .owned [], true⟩,
        .error (.previousAbort, ⟨.unexpectedDataTransfer, .receiver, .other 0⟩)) :=
  abort_terminal_and_counter_below_256.1 ⟨⟨9, 2, none, .other 0⟩, 1, .owned [], true⟩ _ rfl

/-- C7, amended: in every live state whose counter is below 255 (so that
the `u8` successor does not wrap), a segment whose sequence differs from
received_count + 1 aborts the session and returns the sequence error with
ConnectionAbort(BadSequenceNumber, Receiver); and once aborted, every input
is answered with the previous-abort error and
ConnectionAbort(UnexpectedDataTransfer, Receiver), the state returned
untouched.  At counter 255 the claim fails — see the counterexample. -/
theorem out_of_order_aborts_then_rejects :
    (∀ (t : Transfer) (msg : DataTransfer), t.abort = false → t.rx_packets < 255 →
      msg.sequence ≠ t.rx_packets + 1 →
      t.next msg = some ({ t with abort := true }, .error (.sequence,
        ⟨.badSequenceNumber, .receiver, t.rts.pgn⟩))) ∧
    (∀ (t : Transfer) (msg : DataTransfer), t.abort = true →
      t.next msg = some (t, .error (.previousAbort,
        ⟨.unexpectedDataTransfer, .receiver, t.rts.pgn⟩))) := by
  constructor
  · intro t msg hab hlt hseq
    refine next_bad_sequence t msg hab ?_
    rwa [Nat.mod_eq_of_lt (by omega)]
  · exact next_of_abort

/-- C7 witness: a concrete live session fed sequence 5 when 1 is expected. -/
theorem out_of_order_witness :
    Transfer.next ⟨⟨9, 2, none, .other 0⟩, 0, .owned [], false⟩ ⟨5, [0, 0, 0, 0, 0, 0, 0]⟩ =
      some (⟨⟨9, 2, none, .other 0⟩, 0, .owned [], true⟩,
        .error (.sequence, ⟨.badSequenceNumber, .receiver, .other 0⟩)) :=
  out_of_order_aborts_then_rejects.1 ⟨⟨9, 2, none, .other 0⟩, 0, .owned [], false⟩ _
    rfl (by decide) (by decide)

/-- C8, amended: a finished session (counter = total_packets, not aborted)
aborts with the sequence error on any segment whose sequence is not the
wrapped successor total_packets + 1; but the segment carrying exactly that
successor is still accepted (shown here for the growable backend without a
burst limit: the call returns `Ok(None)` and the counter moves past
total_packets), so completion is not a terminal state. -/
theorem finished_session_sequence_behaviour :
    (∀ (t : Transfer) (msg : DataTransfer), t.abort = false →
      t.rx_packets = t.rts.total_packets →
      msg.sequence ≠ (t.rx_packets + 1) % 256 →
      t.next msg = some ({ t with abort := true }, .error (.sequence,
        ⟨.badSequenceNumber, .receiver, t.rts.pgn⟩))) ∧
    (∀ (t : Transfer) (msg : DataTransfer) (vec : List Nat), t.abort = false →
      t.rx_packets = t.rts.total_packets → t.storage = .owned vec →
      t.rts.max_packets_per_response = none →
      msg.sequence = (t.rx_packets + 1) % 256 →
      t.next msg = some ({ t with
        storage := .owned ((vec ++ msg.data).take t.rts.total_size),
        rx_packets := (t.rx_packets + 1) % 256 }, .ok none)) := by
  constructor
  · intro t msg hab _ hseq
    exact next_bad_sequence t msg hab hseq
  · intro t msg vec hab hrx hst hb hseq
    have hne : (t.rx_packets + 1) % 256 ≠ t.rts.total_packets := by
      rw [hrx]; omega
    simp [Transfer.next, Storage.write, hab, hseq, hst, hne, hb]

/-- C8 witness: the acceptance branch applied to a concrete finished
session (total_packets 3, counter 3) fed sequence 4. -/
theorem finished_session_witness :
    Transfer.next ⟨⟨16, 3, none, .other 0⟩, 3,
        .owned [1, 2, 3, 4, 5, 6, 7, 8, 9, 10, 11, 12, 13, 14, 15, 16], false⟩
        ⟨4, [9, 9, 9, 9, 9, 9, 9]⟩ =
      some (⟨⟨16, 3, none, .other 0⟩, 4,
        .owned (([1, 2, 3, 4, 5, 6, 7, 8, 9, 10, 11, 12, 13, 14, 15, 16] ++
          [9, 9, 9, 9, 9, 9, 9]).take 16), false⟩, .ok none) :=
  finished_session_sequence_behaviour.2
    ⟨⟨16, 3, none, .other 0⟩, 3,
      .owned [1, 2, 3, 4, 5, 6, 7, 8, 9, 10, 11, 12, 13, 14, 15, 16], false⟩
    ⟨4, [9, 9, 9, 9, 9, 9, 9]⟩ _ rfl rfl rfl rfl (by decide)

/-- C9, amended: for every session state whose stored bytes are at least
total_size long (true of every growable-backend state and of fixed regions
of sufficient length), the read accessor returns the first total_size
stored bytes exactly when the counter has reached total_packets and the
session is not aborted, and `None` otherwise; it never mutates the session
(it is a pure function of the state).  Without the length premise the
accessor can panic — see the counterexample. -/
theorem read_accessor_characterisation (t : Transfer)
    (h : t.rts.total_size ≤ t.storage.bytes.length) :
    t.finished = some (if t.rts.total_packets ≤ t.rx_packets ∧ t.abort = false
      then some (t.storage.bytes.take t.rts.total_size) else none) := by
  unfold Transfer.finished
  rw [if_pos h]
  split <;> rfl

/-- C9 witness: the characterisation applied to a concrete completed
session. -/
theorem read_accessor_witness :
    Transfer.finished ⟨⟨9, 2, none, .other 0⟩, 2,
        .owned [1, 2, 3, 4, 5, 6, 7, 8, 9], false⟩ =
      some (if (2 : Nat) ≤ 2 ∧ (false = false)
        then some ([1, 2, 3, 4, 5, 6, 7, 8, 9].take 9) else none) :=
  read_accessor_characterisation
    ⟨⟨9, 2, none, .other 0⟩, 2, .owned [1, 2, 3, 4, 5, 6, 7, 8, 9], false⟩ (by decide)

/-- Every abort-reason discriminant decodes back to its reason. -/
lemma reason_roundtrip (r : AbortReason) :
    (AbortReason.fromU8 r.toU8).getD .custom = r := by
  cases r <;> rfl

/-- The encoder masks the role byte with `0b11111100`, zeroing the two role
bits, so the decoder always reads role bits `0b00`, i.e. `Sender`. -/
lemma role_encode_decode_sender (ro : AbortSenderRole) :
    (AbortSenderRole.fromU8 ((ro.toU8 &&& 0b11111100) &&& 0b00000011)).getD .notSpecified =
      .sender := by
  cases ro <;> rfl

/-- RequestToSend: encode then decode is the identity on valid values. -/
lemma rts_roundtrip (m : RequestToSend) (hm : m.wf) :
    RequestToSend.decode (RequestToSend.encode m) = .ok m := by
  obtain ⟨ts, tp, burst, p⟩ := m
  obtain ⟨h1, h2, h3, h4⟩ := hm
  dsimp only at h1 h2 h3 h4
  simp only [RequestToSend.encode, Pgn.bytes, List.cons_append, List.nil_append,
    RequestToSend.decode]
  rw [if_neg (by decide)]
  simp only [Except.ok.injEq, RequestToSend.mk.injEq]
  refine ⟨by omega, by omega, ?_, pgn_bytes_roundtrip h4⟩
  rcases burst with _ | b
  · simp
  · have hb : b < 255 := h3 b rfl
    have hb2 : b % 256 = b := Nat.mod_eq_of_lt (by omega)
    simp only [Option.getD_some, hb2]
    rw [if_neg (by omega)]

/-- ClearToSend: encode then decode is the identity on valid values. -/
lemma cts_roundtrip (m : ClearToSend) (hm : m.wf) :
    ClearToSend.decode (ClearToSend.encode m) = .ok m := by
  obtain ⟨burst, seq, p⟩ := m
  obtain ⟨h1, h2, h3⟩ := hm
  dsimp only at h1 h2 h3
  simp only [ClearToSend.encode, Pgn.bytes, List.cons_append, List.nil_append,
    ClearToSend.decode]
  rw [if_neg (by decide)]
  simp only [Except.ok.injEq, ClearToSend.mk.injEq]
  refine ⟨?_, by omega, pgn_bytes_roundtrip h3⟩
  rcases burst with _ | b
  · simp
  · have hb : b < 255 := h1 b rfl
    have hb2 : b % 256 = b := Nat.mod_eq_of_lt (by omega)
    simp only [Option.getD_some, hb2]
    rw [if_neg (by omega)]

/-- EndOfMessageAck: encode then decode is the identity on valid values. -/
lemma eom_roundtrip (m : EndOfMessageAck) (hm : m.wf) :
    EndOfMessageAck.decode (EndOfMessageAck.encode m) = .ok m := by
  obtain ⟨ts, tp, p⟩ := m
  obtain ⟨h1, h2, h3⟩ := hm
  dsimp only at h1 h2 h3
  simp only [EndOfMessageAck.encode, Pgn.bytes, List.cons_append, List.nil_append,
    EndOfMessageAck.decode]
  rw [if_neg (by decide)]
  simp only [Except.ok.injEq, EndOfMessageAck.mk.injEq]
  exact ⟨by omega, by omega, pgn_bytes_roundtrip h3⟩

/-- DataTransfer: encode then decode is the identity on valid values. -/
lemma dt_roundtrip (m : DataTransfer) (hm : m.wf) :
    DataTransfer.decode (DataTransfer.encode m) = .ok m := by
  obtain ⟨seq, data⟩ := m
  obtain ⟨h1, h2⟩ := hm
  dsimp only at h1 h2
  rcases data with _ | ⟨d0, data⟩; · simp at h2
  rcases data with _ | ⟨d1, data⟩; · simp at h2
  rcases data with _ | ⟨d2, data⟩; · simp at h2
  rcases data with _ | ⟨d3, data⟩; · simp at h2
  rcases data with _ | ⟨d4, data⟩; · simp at h2
  rcases data with _ | ⟨d5, data⟩; · simp at h2
  rcases data with _ | ⟨d6, data⟩; · simp at h2
  rcases data with _ | ⟨d7, data⟩
  · simp only [DataTransfer.encode, DataTransfer.decode, Except.ok.injEq,
      DataTransfer.mk.injEq]
    exact ⟨by omega, trivial⟩
  · simp at h2

/-- ConnectionAbort: the reason and the identifier survive the round trip,
but the decoded sender role is always `Sender`. -/
lemma abort_roundtrip (m : ConnectionAbort) (hm : m.wf) :
    ConnectionAbort.decode (ConnectionAbort.encode m) = .ok ⟨m.reason, .sender, m.pgn⟩ := by
  obtain ⟨r, ro, p⟩ := m
  simp only [ConnectionAbort.encode, Pgn.bytes, List.cons_append, List.nil_append,
    ConnectionAbort.decode]
  rw [if_neg (by decide)]
  simp only [Except.ok.injEq, ConnectionAbort.mk.injEq]
  exact ⟨reason_roundtrip r, role_encode_decode_sender ro, pgn_bytes_roundtrip hm⟩

/-- C2, amended: encoding followed by decoding reproduces every valid
RequestToSend, ClearToSend, EndOfMessageAck and DataTransfer exactly; for
ConnectionAbort the reason and identifier are reproduced but the decoded
sender role is always `Sender`, whatever role was encoded, because the
encoder masks the role byte with `0b11111100` (and a role of `Reserved`
could not round-trip in any case: the decoder has no `Reserved` arm). -/
theorem roundtrip_amended :
    (∀ m : RequestToSend, m.wf → RequestToSend.decode (RequestToSend.encode m) = .ok m) ∧
    (∀ m : ClearToSend, m.wf → ClearToSend.decode (ClearToSend.encode m) = .ok m) ∧
    (∀ m : EndOfMessageAck, m.wf → EndOfMessageAck.decode (EndOfMessageAck.encode m) = .ok m) ∧
    (∀ m : DataTransfer, m.wf → DataTransfer.decode (DataTransfer.encode m) = .ok m) ∧
    (∀ m : ConnectionAbort, m.wf →
      ConnectionAbort.decode (ConnectionAbort.encode m) = .ok ⟨m.reason, .sender, m.pgn⟩) :=
  ⟨rts_roundtrip, cts_roundtrip, eom_roundtrip, dt_roundtrip, abort_roundtrip⟩

/-- C2 witness: the round trip applied to a concrete RequestToSend. -/
theorem roundtrip_amended_witness :
    RequestToSend.decode (RequestToSend.encode ⟨16, 3, some 2, .proprietaryA⟩) =
      .ok ⟨16, 3, some 2, .proprietaryA⟩ :=
  roundtrip_amended.1 ⟨16, 3, some 2, .proprietaryA⟩
    ⟨by decide, by decide, by intro b hb; cases hb; decide, by decide⟩

/-- C6: with a configured burst limit B (0 < B: limit 0 halts the process,
see the division-by-zero theorem), the k-th in-order segment of the
transfer (so the live state holds k−1 received packets) is answered with:
EndOfMessageAck(total_size, total_packets, id) when k = total_packets;
otherwise ClearToSend(next_sequence = k+1 = received_count+1, same burst
limit echoed) exactly when k mod B = 0; otherwise no response. -/
theorem burst_cadence (ts tp B k : Nat) (p : Pgn) (vec data : List Nat)
    (hB : 0 < B) (hk1 : 1 ≤ k) (hk2 : k ≤ tp) (htp : tp ≤ 255) :
    Transfer.next ⟨⟨ts, tp, some B, p⟩, k - 1, .owned vec, false⟩ ⟨k, data⟩ =
      some (⟨⟨ts, tp, some B, p⟩, k, .owned ((vec ++ data).take ts), false⟩,
        if k = tp then .ok (some (.endAck ⟨ts, tp, p⟩))
        else if k % B = 0 then .ok (some (.cts ⟨some B, k + 1, p⟩))
        else .ok none) := by
  have e1 : (k - 1 + 1) % 256 = k := by omega
  have hB0 : ¬ B = 0 := by omega
  rcases eq_or_ne k tp with hk | hk
  · subst hk
    simp [Transfer.next, Storage.write, e1]
  · have e2 : (k + 1) % 256 = k + 1 := Nat.mod_eq_of_lt (by omega)
    by_cases hmod : k % B = 0 <;>
      simp [Transfer.next, Storage.write, e1, e2, hk, hB0, hmod]

/-- C6 witness: the repository test scenario — total_size 16, burst 2 —
where segment 2 draws the ClearToSend with next_sequence 3. -/
theorem burst_cadence_witness :
    Transfer.next ⟨⟨16, 3, some 2, .proprietaryA⟩, 1,
        .owned [1, 2, 3, 4, 5, 6, 7], false⟩ ⟨2, [1, 2, 3, 4, 5, 6, 7]⟩ =
      some (⟨⟨16, 3, some 2, .proprietaryA⟩, 2,
        .owned (([1, 2, 3, 4, 5, 6, 7] ++ [1, 2, 3, 4, 5, 6, 7]).take 16), false⟩,
        if (2 : Nat) = 3 then .ok (some (.endAck ⟨16, 3, .proprietaryA⟩))
        else if (2 : Nat) % 2 = 0 then
          .ok (some (.cts ⟨some 2, 3, .proprietaryA⟩))
        else .ok none) :=
  burst_cadence 16 3 2 2 .proprietaryA [1, 2, 3, 4, 5, 6, 7] [1, 2, 3, 4, 5, 6, 7]
    (by decide) (by decide) (by decide) (by decide)

/-- Driving a session through concatenated message lists composes. -/
lemma run_append (t : Transfer) (ms ms2 : List DataTransfer) :
    t.run (ms ++ ms2) = (t.run ms).bind fun t2 => t2.run ms2 := by
  induction ms generalizing t with
  | nil => simp [Transfer.run]
  | cons m ms ih =>
      simp only [List.cons_append, Transfer.run]
      rcases h : t.next m with _ | ⟨t2, r⟩
      · rfl
      · exact ih t2

/-- The concatenation of the first k segment payloads. -/
def fedBytes (d : Nat → List Nat) (k : Nat) : List Nat :=
  ((List.range k).map d).flatten

lemma fedBytes_succ (d : Nat → List Nat) (k : Nat) :
    fedBytes d (k + 1) = fedBytes d k ++ d k := by
  unfold fedBytes
  rw [List.range_succ, List.map_append, List.flatten_append]
  simp

lemma fedBytes_length (d : Nat → List Nat) (hd : ∀ i, (d i).length = 7) (k : Nat) :
    (fedBytes d k).length = 7 * k := by
  induction k with
  | zero => simp [fedBytes]
  | succ k ih =>
      rw [fedBytes_succ, List.length_append, ih, hd k]
      omega

/-- Accepted in-order step on the fixed backend with a live window: the
window is overwritten and the counter moves to the wrapped successor. -/
lemma next_accept_borrowed (t : Transfer) (msg : DataTransfer) (slice : List Nat)
    (hab : t.abort = false) (hst : t.storage = .borrowed slice)
    (hcap : 7 * t.rx_packets < slice.length)
    (hseq : msg.sequence = (t.rx_packets + 1) % 256)
    (hb : ∀ x ∈ t.rts.max_packets_per_response, 0 < x) :
    ∃ r, t.next msg =
      some ({ t with
        storage := .borrowed (writeChunk slice t.rx_packets msg.data),
        rx_packets := (t.rx_packets + 1) % 256 }, .ok r) := by
  unfold Transfer.next
  rw [if_neg (by simp [hab]), if_neg (by simp [hseq]), hst]
  simp only [Storage.write, if_pos hcap]
  split
  · exact ⟨_, rfl⟩
  · rcases hmp : t.rts.max_packets_per_response with _ | b
    · exact ⟨_, rfl⟩
    · have hb0 : ¬ b = 0 := by
        have := hb b (by simp [hmp])
        omega
      simp only [hb0, if_false]
      split
      · exact ⟨_, rfl⟩
      · exact ⟨_, rfl⟩

/-- One fixed-backend write step, on the level of the stored bytes. -/
lemma writeChunk_step (d : Nat → List Nat) (s0 : List Nat) (L k : Nat)
    (hs0 : s0.length = L) (hd : ∀ i, (d i).length = 7) (hcap : 7 * k < L) :
    writeChunk ((fedBytes d k).take (min (7 * k) L) ++ s0.drop (min (7 * k) L)) k (d k) =
      (fedBytes d (k + 1)).take (min (7 * (k + 1)) L) ++
        s0.drop (min (7 * (k + 1)) L) := by
  have hmk : min (7 * k) L = 7 * k := by omega
  have hCk : (fedBytes d k).length = 7 * k := fedBytes_length d hd k
  have htk : (fedBytes d k).take (min (7 * k) L) = fedBytes d k := by
    rw [hmk, ← hCk, List.take_length]
  rw [htk]
  have hslen : (fedBytes d k ++ s0.drop (min (7 * k) L)).length = L := by
    rw [List.length_append, hCk, List.length_drop, hs0, hmk]
    omega
  unfold writeChunk
  rw [hslen, hmk]
  have h1 : (fedBytes d k ++ s0.drop (7 * k)).take (7 * k) = fedBytes d k := by
    rw [← hCk, List.take_left]
  have h2 : (fedBytes d k ++ s0.drop (7 * k)).drop (7 * k + 7) = s0.drop (7 * k + 7) := by
    rw [List.drop_append_eq_append_drop, hCk,
      List.drop_eq_nil_of_le (by omega), List.drop_drop]
    simp only [List.nil_append]
    congr 1
    omega
  rw [h1, h2, fedBytes_succ]
  rcases le_or_lt (7 * (k + 1)) L with hle | hlt
  · have hm2 : min (7 * (k + 1)) L = 7 * (k + 1) := by omega
    have hm7 : min 7 (L - 7 * k) = 7 := by omega
    have ht2 : (fedBytes d k ++ d k).take (7 * (k + 1)) = fedBytes d k ++ d k := by
      refine List.take_of_length_le ?_
      rw [List.length_append, hCk, hd k]
      omega
    have ht7 : (d k).take 7 = d k := List.take_of_length_le (by rw [hd k])
    rw [hm2, hm7, ht2, ht7, show 7 * k + 7 = 7 * (k + 1) from by omega]
  · have hm2 : min (7 * (k + 1)) L = L := by omega
    have hm7 : min 7 (L - 7 * k) = L - 7 * k := by omega
    have htA : (fedBytes d k).take L = fedBytes d k :=
      List.take_of_length_le (by rw [hCk]; omega)
    rw [hm2, hm7, List.take_append_eq_append_take, htA, hCk,
      List.drop_eq_nil_of_le (by rw [hs0]; omega),
      List.drop_eq_nil_of_le (by rw [hs0])]

/-- Invariant of in-order feeding on the fixed backend: after k accepted
segments the first min(7k, L) region bytes are the fed payload bytes and
the rest of the region is untouched. -/
lemma fixed_inv (ts tp L : Nat) (b : Option Nat) (p : Pgn)
    (d : Nat → List Nat) (s0 : List Nat)
    (htp : tp ≤ 255) (hs0 : s0.length = L) (hd : ∀ i, (d i).length = 7)
    (hb : ∀ x ∈ b, 0 < x) :
    ∀ k, 7 * k ≤ L + 6 → k ≤ 255 →
      Transfer.run (Transfer.mkNewWithStorage ⟨ts, tp, b, p⟩ s0) (ascSegs d k) =
        some ⟨⟨ts, tp, b, p⟩, k,
          .borrowed ((fedBytes d k).take (min (7 * k) L) ++ s0.drop (min (7 * k) L)),
          false⟩ := by
  intro k
  induction k with
  | zero =>
      intro _ _
      simp [ascSegs, Transfer.run, Transfer.mkNewWithStorage, fedBytes]
  | succ k ih =>
      intro hkL hk255
      have hcap : 7 * k < L := by omega
      have hseg : ascSegs d (k + 1) = ascSegs d k ++ [⟨k + 1, d k⟩] := by
        simp [ascSegs, List.range_succ]
      rw [hseg, run_append, ih (by omega) (by omega), Option.some_bind]
      have hmod : (k + 1) % 256 = k + 1 := Nat.mod_eq_of_lt (by omega)
      have hlen : ((fedBytes d k).take (min (7 * k) L) ++
          s0.drop (min (7 * k) L)).length = L := by
        rw [List.length_append, List.length_take, List.length_drop,
          fedBytes_length d hd k, hs0]
        omega
      obtain ⟨r, hr⟩ := next_accept_borrowed
        ⟨⟨ts, tp, b, p⟩, k,
          .borrowed ((fedBytes d k).take (min (7 * k) L) ++ s0.drop (min (7 * k) L)),
          false⟩
        ⟨k + 1, d k⟩ _ rfl rfl (by rw [hlen]; exact hcap) (by simp [hmod]) hb
      simp only [Transfer.run, hr]
      rw [hmod, writeChunk_step d s0 L k hs0 hd hcap]

/-- Accepted in-order step on the growable backend: the payload is appended
and truncated to total_size, the counter moves to the wrapped successor,
and the call succeeds with some (possibly absent) response. -/
lemma next_accept_owned (t : Transfer) (msg : DataTransfer) (vec : List Nat)
    (hab : t.abort = false) (hst : t.storage = .owned vec)
    (hseq : msg.sequence = (t.rx_packets + 1) % 256)
    (hb : ∀ x ∈ t.rts.max_packets_per_response, 0 < x) :
    ∃ r, t.next msg =
      some ({ t with
        storage := .owned ((vec ++ msg.data).take t.rts.total_size),
        rx_packets := (t.rx_packets + 1) % 256 }, .ok r) := by
  unfold Transfer.next
  rw [if_neg (by simp [hab]), if_neg (by simp [hseq]), hst]
  simp only [Storage.write]
  split
  · exact ⟨_, rfl⟩
  · rcases hmp : t.rts.max_packets_per_response with _ | b
    · exact ⟨_, rfl⟩
    · have hb0 : ¬ b = 0 := by
        have := hb b (by simp [hmp])
        omega
      simp only [hb0, if_false]
      split
      · exact ⟨_, rfl⟩
      · exact ⟨_, rfl⟩

/-- One reassembly step on the stored prefix: appending the k-th chunk and
truncating to total_size extends the stored prefix of the original bytes. -/
lemma storage_step (O : List Nat) (ts tp k : Nat) (hlen : O.length = ts)
    (htp : tp = (ts + 6) / 7) (hk : k < tp) (h17 : ts ≤ 1785) :
    (O.take (min (7 * k) ts) ++ chunkPayload O k).take ts =
      O.take (min (7 * (k + 1)) ts) := by
  have h7k : 7 * k < ts := by omega
  have hmin : min (7 * k) ts = 7 * k := by omega
  rw [hmin]
  unfold chunkPayload
  rw [← List.append_assoc]
  have htake : O.take (7 * k) ++ (O.drop (7 * k)).take 7 = O.take (7 * k + 7) := by
    rw [List.take_add]
  rw [htake, List.take_append_eq_append_take, List.take_take, List.length_take, hlen]
  have hlen2 : ((O.drop (7 * k)).take 7).length = min 7 (ts - 7 * k) := by
    rw [List.length_take, List.length_drop, hlen]
  rcases Nat.lt_or_ge (7 * k + 7) ts with hlt | hge
  · have h7 : min 7 (ts - 7 * k) = 7 := by omega
    rw [hlen2, h7]
    simp only [Nat.sub_self, List.replicate_zero, List.take_nil, List.append_nil]
    congr 1
    omega
  · have h0 : ts - min (7 * k + 7) ts = 0 := by omega
    rw [h0, List.take_zero, List.append_nil]
    congr 1
    omega

/-- Invariant of the happy path on the growable backend: after the first k
in-order, correctly chunked segments the session holds counter k, the first
min(7k, total_size) original bytes, and is not aborted. -/
lemma happy_inv (ts tp : Nat) (O : List Nat) (b : Option Nat) (p : Pgn)
    (h9 : 9 ≤ ts) (h17 : ts ≤ 1785) (htp : tp = (ts + 6) / 7) (hlen : O.length = ts)
    (hb : ∀ x ∈ b, 0 < x) :
    ∀ k, k ≤ tp →
      Transfer.run (Transfer.mkNew ⟨ts, tp, b, p⟩) (segStream O k) =
        some ⟨⟨ts, tp, b, p⟩, k, .owned (O.take (min (7 * k) ts)), false⟩ := by
  have htp255 : tp ≤ 255 := by omega
  intro k
  induction k with
  | zero =>
      intro _
      simp [segStream, ascSegs, Transfer.run, Transfer.mkNew]
  | succ k ih =>
      intro hk1
      have hk : k ≤ tp := by omega
      have hseg : segStream O (k + 1) = segStream O k ++ [⟨k + 1, chunkPayload O k⟩] := by
        simp [segStream, ascSegs, List.range_succ]
      rw [hseg, run_append, ih hk, Option.some_bind]
      have hmod : (k + 1) % 256 = k + 1 := Nat.mod_eq_of_lt (by omega)
      obtain ⟨r, hr⟩ := next_accept_owned
        ⟨⟨ts, tp, b, p⟩, k, .owned (O.take (min (7 * k) ts)), false⟩
        ⟨k + 1, chunkPayload O k⟩ (O.take (min (7 * k) ts)) rfl rfl (by simp [hmod]) hb
      simp only [Transfer.run, hr]
      rw [hmod, storage_step O ts tp k hlen htp (by omega) h17]

/-- C1: for every total_size in [9, 1785] and original byte string O of
that length, feeding the correctly chunked segments 1..k in strict
ascending order (k ≤ total_packets = ceil(total_size/7), growable storage,
any burst policy with a nonzero limit) leaves counter k and no abort; the
session is complete — the read accessor returns exactly the original
bytes, padding stripped — precisely when k = total_packets, and the
accessor reports "not yet available" for every k < total_packets. -/
theorem happy_path_completion (ts tp k : Nat) (O : List Nat) (b : Option Nat) (p : Pgn)
    (h9 : 9 ≤ ts) (h17 : ts ≤ 1785) (htp : tp = (ts + 6) / 7) (hlen : O.length = ts)
    (hb : ∀ x ∈ b, 0 < x) (hk : k ≤ tp) :
    Transfer.run (Transfer.mkNew ⟨ts, tp, b, p⟩) (segStream O k) =
      some ⟨⟨ts, tp, b, p⟩, k, .owned (O.take (min (7 * k) ts)), false⟩ ∧
    Transfer.finished ⟨⟨ts, tp, b, p⟩, k, .owned (O.take (min (7 * k) ts)), false⟩ =
      (if k = tp then some (some O) else some none) := by
  refine ⟨happy_inv ts tp O b p h9 h17 htp hlen hb k hk, ?_⟩
  rcases eq_or_ne k tp with hke | hke
  · subst hke
    have hmin : min (7 * k) ts = ts := by omega
    have htk : O.take ts = O := by rw [← hlen]; exact List.take_length O
    rw [if_pos rfl]
    unfold Transfer.finished
    rw [if_pos (by simp), if_pos (by simp [Storage.bytes, List.length_take, hlen]; omega)]
    simp [Storage.bytes, hmin, htk, List.take_take]
  · rw [if_neg hke]
    unfold Transfer.finished
    rw [if_neg]
    simp only [not_and]
    intro hle
    omega

/-- C1 witness: total_size 9 (total_packets 2) with an explicit original
byte string, fed both chunks. -/
theorem happy_path_completion_witness :
    Transfer.run (Transfer.mkNew ⟨9, 2, none, .other 0⟩)
        (segStream [1, 2, 3, 4, 5, 6, 7, 8, 9] 2) =
      some ⟨⟨9, 2, none, .other 0⟩, 2,
        .owned ([1, 2, 3, 4, 5, 6, 7, 8, 9].take (min (7 * 2) 9)), false⟩ ∧
    Transfer.finished ⟨⟨9, 2, none, .other 0⟩, 2,
        .owned ([1, 2, 3, 4, 5, 6, 7, 8, 9].take (min (7 * 2) 9)), false⟩ =
      (if (2 : Nat) = 2 then some (some [1, 2, 3, 4, 5, 6, 7, 8, 9]) else some none) :=
  happy_path_completion 9 2 2 [1, 2, 3, 4, 5, 6, 7, 8, 9] none (.other 0)
    (by decide) (by decide) (by decide) (by decide) (by simp) (by decide)

/-- C5, amended: a fixed region of L bytes offers W = ceil(L/7) write
windows (the last one partial when 7 does not divide L).  If W <
total_packets, then in-order feeding accepts segments 1..W — after k of
them the first min(7k, L) region bytes are exactly the fed payload bytes
in order, so full windows lose nothing, while the final partial window
keeps only its first L − 7(W−1) payload bytes — and segment W+1 is the
first to fail: it returns the storage-too-small error together with
ConnectionAbort(Custom, Receiver) and sets the abort flag, leaving counter
and region untouched. -/
theorem fixed_storage_bound_amended (ts tp L W : Nat) (b : Option Nat) (p : Pgn)
    (d : Nat → List Nat) (s0 sW : List Nat)
    (htp : tp ≤ 255) (hWdef : W = (L + 6) / 7) (hW : W < tp) (hs0 : s0.length = L)
    (hd : ∀ i, (d i).length = 7) (hb : ∀ x ∈ b, 0 < x)
    (hsW : sW = (fedBytes d W).take (min (7 * W) L) ++ s0.drop (min (7 * W) L)) :
    (∀ k, k ≤ W →
      Transfer.run (Transfer.mkNewWithStorage ⟨ts, tp, b, p⟩ s0) (ascSegs d k) =
        some ⟨⟨ts, tp, b, p⟩, k,
          .borrowed ((fedBytes d k).take (min (7 * k) L) ++ s0.drop (min (7 * k) L)),
          false⟩) ∧
    Transfer.next ⟨⟨ts, tp, b, p⟩, W, .borrowed sW, false⟩ ⟨W + 1, d W⟩ =
      some (⟨⟨ts, tp, b, p⟩, W, .borrowed sW, true⟩,
        .error (.storageTooSmall, ⟨.custom, .receiver, p⟩)) := by
  constructor
  · intro k hk
    exact fixed_inv ts tp L b p d s0 htp hs0 hd hb k (by omega) (by omega)
  · have hmod : (W + 1) % 256 = W + 1 := Nat.mod_eq_of_lt (by omega)
    have hlenW : sW.length = L := by
      rw [hsW, List.length_append, List.length_take, List.length_drop,
        fedBytes_length d hd W, hs0]
      omega
    unfold Transfer.next
    rw [if_neg (by simp), if_neg (by simp [hmod])]
    simp only [Storage.write]
    rw [if_neg (by rw [hlenW]; omega)]

/-- C5 witness: an 8-byte region (two windows, the second 1 byte wide) for
a 3-packet transfer; segments 1 and 2 are accepted, segment 3 fails with
storage-too-small and aborts. -/
theorem fixed_storage_bound_witness :
    (∀ k, k ≤ 2 →
      Transfer.run (Transfer.mkNewWithStorage ⟨16, 3, none, .other 0⟩ (List.replicate 8 0))
          (ascSegs (fun i => List.replicate 7 (i + 1)) k) =
        some ⟨⟨16, 3, none, .other 0⟩, k,
          .borrowed ((fedBytes (fun i => List.replicate 7 (i + 1)) k).take (min (7 * k) 8) ++
            (List.replicate 8 0).drop (min (7 * k) 8)),
          false⟩) ∧
    Transfer.next ⟨⟨16, 3, none, .other 0⟩, 2,
        .borrowed ((fedBytes (fun i => List.replicate 7 (i + 1)) 2).take (min (7 * 2) 8) ++
          (List.replicate 8 0).drop (min (7 * 2) 8)), false⟩
        ⟨2 + 1, List.replicate 7 (2 + 1)⟩ =
      some (⟨⟨16, 3, none, .other 0⟩, 2,
        .borrowed ((fedBytes (fun i => List.replicate 7 (i + 1)) 2).take (min (7 * 2) 8) ++
          (List.replicate 8 0).drop (min (7 * 2) 8)), true⟩,
        .error (.storageTooSmall, ⟨.custom, .receiver, .other 0⟩)) :=
  fixed_storage_bound_amended 16 3 8 2 none (.other 0)
    (fun i => List.replicate 7 (i + 1)) (List.replicate 8 0) _
    (by decide) (by decide) (by decide) (by simp)
    (by intro i; simp) (by simp) rfl

end Saelient
